import Mathlib

/-!
Verification of the reference-counted byte-buffer/string runtime
(`libraries/llvm/buffer.c`, `libraries/llvm/types.c`).

The C code is shallowly embedded: `struct Buffer` (a View) becomes the
structure `Buffer`, and the heap block behind its `data` pointer (8-byte
header holding the shared-owner counter, followed by payload bytes)
becomes the structure `Storage`.  Machine bytes are `Nat`s; every read
through a `uint8_t *` reduces mod 256, mirroring the width of the C type.
Storage mutation (the reference-counting operations) is modelled by
returning the new storage state, `none` standing for a freed block.

Integer widths: `struct Buffer` stores `offset` and `length` in
`uint32_t` fields while the API traffics in `uint64_t` values, so an
assignment into a field truncates mod 2^32 and guard arithmetic wraps
mod 2^64.  Operations whose claims reach those widths carry the
truncation and wrap explicitly (`c_buffer_construct`,
`c_buffer_concatenate`, `FixedWidth.c_buffer_slice`); in the sub-width
regime they coincide with the simpler mod-free forms (see the
`fixedWidth_*_agrees` lemmas).
-/

set_option autoImplicit false
set_option maxRecDepth 8192

/-- The heap block behind a Buffer's `data` pointer: an 8-byte header
(`BUFFER_HEADER_WIDTH`) whose first field is the shared-owner reference
counter (`c_buffer_refcount`), followed by the raw payload bytes. -/
structure Storage where
  refcount : Nat
  payload : List Nat
deriving DecidableEq, Repr

/-- `struct Buffer` from `types.c`: offset + length + handle to Storage. -/
structure Buffer where
  offset : Nat
  length : Nat
  data : Storage
deriving DecidableEq, Repr

/-- `c_buffer_offset`. -/
def c_buffer_offset (b : Buffer) : Nat := b.offset

/-- `c_buffer_length`. -/
def c_buffer_length (b : Buffer) : Nat := b.length

/-- `c_buffer_bytes(buffer)[j]`: the byte at physical payload position
`buffer.offset + j`.  A `uint8_t` read is always < 256, hence the mod. -/
def c_buffer_bytes (b : Buffer) (j : Nat) : Nat :=
  (b.data.payload.getD (b.offset + j) 0) % 256

/-- `c_buffer_index`: raw byte at logical position `index` (same address
computation as `c_buffer_bytes`, inlined in the C source). -/
def c_buffer_index (b : Buffer) (index : Nat) : Nat :=
  (b.data.payload.getD (b.offset + index) 0) % 256

/-- `c_buffer_construct(n, data)`: allocate header + `n` payload bytes,
zero the header (reference count 0 = sole owner), copy `data[j]` for
`j < n` into the payload (the copy loop runs over the full `uint64_t`
count `n`), return the View `{0, n, new storage}` — where the assignment
`.length = n` puts a `uint64_t` into a `uint32_t` field, truncating
mod 2^32. -/
def c_buffer_construct (n : Nat) (data : List Nat) : Buffer :=
  { offset := 0
    length := n % 2 ^ 32
    data :=
      { refcount := 0
        payload := (List.range n).map (fun j => data.getD j 0) } }

/-- `c_buffer_construct_zeroed(n)`: `c_buffer_construct` on `n` zero bytes. -/
def c_buffer_construct_zeroed (n : Nat) : Buffer :=
  c_buffer_construct n (List.replicate n 0)

/-- `c_buffer_refcount_increment`: `(*c_buffer_refcount(buffer))++`.
Returns the storage with the header counter increased. -/
def c_buffer_refcount_increment (b : Buffer) : Storage :=
  { b.data with refcount := b.data.refcount + 1 }

/-- `c_buffer_refcount_decrement`: `if (!(*c_buffer_refcount(buffer))--)
c_buffer_destruct(buffer);` — if the counter is read as 0 the storage is
freed (`none`), otherwise the counter decreases by one. -/
def c_buffer_refcount_decrement (b : Buffer) : Option Storage :=
  if b.data.refcount = 0 then none
  else some { b.data with refcount := b.data.refcount - 1 }

/-- `c_buffer_slice(buffer, offset, length)`: if
`c_buffer_offset(buffer) + offset + length > c_buffer_length(buffer)`
the buffer is returned unchanged; otherwise the offset advances by
`offset` and the length becomes `length`, over the same storage.
This mod-free form is exact as long as the guard's `uint64_t` sum does
not wrap and the stored offset and length fit `uint32_t` — in
particular whenever the guard sum stays at or below the view's length
field; `FixedWidth.c_buffer_slice` below carries the widths explicitly
and coincides with it in that regime (`fixedWidth_slice_agrees`). -/
def c_buffer_slice (b : Buffer) (off len : Nat) : Buffer :=
  if b.offset + off + len > b.length then b
  else { b with offset := b.offset + off, length := len }

/-- `c_buffer_slice` with the C integer widths explicit: the guard sum
`c_buffer_offset(buffer) + offset + length` is `uint64_t` arithmetic and
wraps mod 2^64, and the assignments `buffer.offset = …` and
`buffer.length = …` put `uint64_t` values into `uint32_t` fields,
truncating mod 2^32. -/
def FixedWidth.c_buffer_slice (b : Buffer) (off len : Nat) : Buffer :=
  if (b.offset + off + len) % 2 ^ 64 > b.length then b
  else { b with offset := (b.offset + off) % 2 ^ 32, length := len % 2 ^ 32 }

/-- The logical byte content of a View: `c_buffer_bytes` at positions
`0, …, length-1`. -/
def viewBytes (b : Buffer) : List Nat :=
  (List.range (c_buffer_length b)).map (c_buffer_bytes b)

/-- Loop body of `c_buffer_as_null_terminated_string`: each byte is
emitted unchanged unless it is 0, which is emitted as `0xC0 0x80`. -/
def c_buffer_as_null_terminated_string_loop : List Nat → List Nat
  | [] => []
  | x :: xs =>
    if x = 0 then 0xC0 :: 0x80 :: c_buffer_as_null_terminated_string_loop xs
    else x :: c_buffer_as_null_terminated_string_loop xs

/-- `c_buffer_as_null_terminated_string(buffer)`: escape the payload
bytes and append the real `0x00` terminator. -/
def c_buffer_as_null_terminated_string (b : Buffer) : List Nat :=
  c_buffer_as_null_terminated_string_loop (viewBytes b) ++ [0]

/-- The loop `uint64_t n = 0; while (data_nt[++n]);` of
`c_buffer_construct_from_null_terminated_string`: starting at index 1
(the pre-increment happens before the first read), scan for the first
zero byte.  `mem` is the readable memory region starting at `data_nt`;
running off its end is an out-of-bounds read, modelled as `none`.
`rest` is the part of memory from index `i` on. -/
def c_string_scan_loop : List Nat → Nat → Option Nat
  | [], _ => none
  | x :: rest, i => if x = 0 then some i else c_string_scan_loop rest (i + 1)

/-- `c_buffer_construct_from_null_terminated_string(data_nt)`: count the
bytes via the scan loop (which starts reading at index 1), then
`c_buffer_construct(n, data_nt)`. -/
def c_buffer_construct_from_null_terminated_string (mem : List Nat) : Option Buffer :=
  (c_string_scan_loop (mem.drop 1) 1).map (fun n => c_buffer_construct n mem)

/-- The 5-byte `char str[5] = {0}` written by `c_buffer_show_Char`:
UTF-8 encoding of the scalar `n` over four size classes, remaining
cells 0.  Each store into a byte truncates mod 256. -/
def c_buffer_show_Char_str (n : Nat) : List Nat :=
  if n < 0x80 then
    [n % 256, 0, 0, 0, 0]
  else if n < 0x800 then
    [(0xC0 ||| (n >>> 6)) % 256, (0x80 ||| (n &&& 0x3F)) % 256, 0, 0, 0]
  else if n < 0x10000 then
    [(0xE0 ||| (n >>> 12)) % 256, (0x80 ||| ((n >>> 6) &&& 0x3F)) % 256,
     (0x80 ||| (n &&& 0x3F)) % 256, 0, 0]
  else if n < 0x110000 then
    [(0xF0 ||| (n >>> 18)) % 256, (0x80 ||| ((n >>> 12) &&& 0x3F)) % 256,
     (0x80 ||| ((n >>> 6) &&& 0x3F)) % 256, (0x80 ||| (n &&& 0x3F)) % 256, 0]
  else
    [0, 0, 0, 0, 0]

/-- `c_buffer_show_Char(n)`: build `str` and hand it to
`c_buffer_construct_from_null_terminated_string`. -/
def c_buffer_show_Char (n : Nat) : Option Buffer :=
  c_buffer_construct_from_null_terminated_string (c_buffer_show_Char_str n)

/-- `c_buffer_concatenate(left, right)`: `c_buffer_construct_zeroed` of
the `uint64_t` sum of the two lengths — `n` payload bytes are allocated
and zeroed, while the assignment into the result's `uint32_t` length
field truncates `n` mod 2^32 — followed by the fill loop, which is
bounded by the result's (truncated) `c_buffer_length`: byte `j` below
that bound is `left`'s byte `j` when `j < length(left)` and `right`'s
byte `j - length(left)` otherwise; allocated bytes at or beyond the
bound keep their zero from `construct_zeroed`. -/
def c_buffer_concatenate (left right : Buffer) : Buffer :=
  { offset := 0
    length := ((c_buffer_length left + c_buffer_length right) % 2 ^ 64) % 2 ^ 32
    data :=
      { refcount := 0
        payload :=
          (List.range ((c_buffer_length left + c_buffer_length right) % 2 ^ 64)).map
            (fun j =>
              if j < ((c_buffer_length left + c_buffer_length right) % 2 ^ 64) % 2 ^ 32 then
                if j < c_buffer_length left then c_buffer_bytes left j
                else c_buffer_bytes right (j - c_buffer_length left)
              else 0) } }

/-- `c_buffer_character_at(buffer, index)`: decode one UTF-8 scalar at
byte `index`, classifying by the leading byte; `character` stays 0 when
the classification's byte count would run past `buffer.length` or when
the leading byte matches no class. -/
def c_buffer_character_at (b : Buffer) (index : Nat) : Nat :=
  if c_buffer_bytes b index < 0x80 then
    c_buffer_bytes b index
  else if c_buffer_bytes b index &&& 0xE0 = 0xC0 then
    if index + 1 < b.length then
      ((c_buffer_bytes b index &&& 0x1F) <<< 6) |||
        (c_buffer_bytes b (index + 1) &&& 0x3F)
    else 0
  else if c_buffer_bytes b index &&& 0xF0 = 0xE0 then
    if index + 2 < b.length then
      ((c_buffer_bytes b index &&& 0x0F) <<< 12) |||
        ((c_buffer_bytes b (index + 1) &&& 0x3F) <<< 6) |||
        (c_buffer_bytes b (index + 2) &&& 0x3F)
    else 0
  else if c_buffer_bytes b index &&& 0xF8 = 0xF0 then
    if index + 3 < b.length then
      ((c_buffer_bytes b index &&& 0x07) <<< 18) |||
        ((c_buffer_bytes b (index + 1) &&& 0x3F) <<< 12) |||
        ((c_buffer_bytes b (index + 2) &&& 0x3F) <<< 6) |||
        (c_buffer_bytes b (index + 3) &&& 0x3F)
    else 0
  else 0

/-! ## Helper lemmas -/

lemma getD_range_map (f : Nat → Nat) {n p : Nat} (h : p < n) (d : Nat) :
    ((List.range n).map f).getD p d = f p := by
  rw [List.getD_eq_getElem?_getD, List.getElem?_map, List.getElem?_range h]
  rfl

lemma c_buffer_bytes_lt (b : Buffer) (j : Nat) : c_buffer_bytes b j < 256 := by
  unfold c_buffer_bytes
  omega

lemma as_nt_string_loop_eq_flatMap (l : List Nat) :
    c_buffer_as_null_terminated_string_loop l
      = l.flatMap (fun x => if x = 0 then [0xC0, 0x80] else [x]) := by
  induction l with
  | nil => rfl
  | cons x xs ih =>
    simp only [c_buffer_as_null_terminated_string_loop, List.flatMap_cons, ih]
    split <;> simp

lemma as_nt_string_loop_length (l : List Nat) :
    (c_buffer_as_null_terminated_string_loop l).length = l.length + l.count 0 := by
  induction l with
  | nil => rfl
  | cons x xs ih =>
    simp only [c_buffer_as_null_terminated_string_loop]
    split
    · simp only [List.length_cons, ih]
      rename_i hx
      subst hx
      simp [List.count_cons]
      omega
    · simp only [List.length_cons, ih]
      rename_i hx
      simp [List.count_cons, hx]
      omega

lemma concat_bytes (a b : Buffer)
    (hab : c_buffer_length a + c_buffer_length b < 2 ^ 32) (j : Nat)
    (hj : j < c_buffer_length a + c_buffer_length b) :
    c_buffer_bytes (c_buffer_concatenate a b) j
      = if j < c_buffer_length a then c_buffer_bytes a j
        else c_buffer_bytes b (j - c_buffer_length a) := by
  have h64 : c_buffer_length a + c_buffer_length b < 2 ^ 64 := by
    have hpow : (2 : Nat) ^ 32 < 2 ^ 64 := by norm_num
    omega
  simp only [c_buffer_bytes, c_buffer_concatenate, c_buffer_length] at *
  rw [Nat.zero_add, Nat.mod_eq_of_lt h64, Nat.mod_eq_of_lt hab,
    getD_range_map _ hj]
  by_cases h : j < a.length
  · simp [hj, h]
  · simp [hj, h]

lemma fixedWidth_construct_sub_width (n : Nat) (d : List Nat) (h : n < 2 ^ 32) :
    c_buffer_length (c_buffer_construct n d) = n := by
  simp only [c_buffer_length, c_buffer_construct]
  exact Nat.mod_eq_of_lt h

lemma fixedWidth_slice_agrees (b : Buffer) (off len : Nat)
    (h64 : b.offset + off + len < 2 ^ 64)
    (ho : b.offset + off < 2 ^ 32) (hl : len < 2 ^ 32) :
    FixedWidth.c_buffer_slice b off len = c_buffer_slice b off len := by
  unfold FixedWidth.c_buffer_slice c_buffer_slice
  rw [Nat.mod_eq_of_lt h64, Nat.mod_eq_of_lt ho, Nat.mod_eq_of_lt hl]

/-! ## Claims -/

/-- C1 (counterexample): the view `b = slice(construct(4,[1,2,3,4]), 1, 3)`
has offset 1 and length 3; for `offset = 1, length = 2` we have
`offset + length = 3 ≤ length(b) = 3`, yet `slice(b, 1, 2)` does not have
length 2 (nor offset `b.offset + 1`): the C guard also adds `b`'s own
offset, so the slice is refused and `b` is returned unchanged. -/
theorem c1_slice_within_range_cex :
    1 + 2 ≤ c_buffer_length (c_buffer_slice (c_buffer_construct 4 [1, 2, 3, 4]) 1 3)
      ∧ c_buffer_length
          (c_buffer_slice (c_buffer_slice (c_buffer_construct 4 [1, 2, 3, 4]) 1 3) 1 2) ≠ 2
      ∧ c_buffer_offset
          (c_buffer_slice (c_buffer_slice (c_buffer_construct 4 [1, 2, 3, 4]) 1 3) 1 2)
        ≠ c_buffer_offset (c_buffer_slice (c_buffer_construct 4 [1, 2, 3, 4]) 1 3) + 1 := by
  refine ⟨by decide, by decide, by decide⟩

/-- C1 (amended): for `b.offset + offset + length ≤ length(b)` —
the condition the C guard actually tests — `slice(b, offset, length)`
returns a View over the same Storage (no allocation, counter untouched)
with offset `b.offset + offset`, length `length`, and `index` values
equal to `b`'s at `offset + j` for `j < length`. -/
theorem c1_slice_within_range_amended (b : Buffer) (off len j : Nat)
    (h : c_buffer_offset b + off + len ≤ c_buffer_length b) (hj : j < len) :
    (c_buffer_slice b off len).data = b.data
      ∧ c_buffer_offset (c_buffer_slice b off len) = c_buffer_offset b + off
      ∧ c_buffer_length (c_buffer_slice b off len) = len
      ∧ c_buffer_index (c_buffer_slice b off len) j = c_buffer_index b (off + j) := by
  simp only [c_buffer_offset, c_buffer_length] at h
  unfold c_buffer_slice
  rw [if_neg (by omega : ¬ b.offset + off + len > b.length)]
  refine ⟨rfl, rfl, rfl, ?_⟩
  show (b.data.payload.getD (b.offset + off + j) 0) % 256
      = (b.data.payload.getD (b.offset + (off + j)) 0) % 256
  rw [Nat.add_assoc]

/-- C1 (witness): the amended slice theorem at
`b = construct(5, [1,2,3,4,5])`, `offset = 1`, `length = 3`, `j = 2`. -/
theorem c1_slice_within_range_witness :
    (c_buffer_slice (c_buffer_construct 5 [1, 2, 3, 4, 5]) 1 3).data
        = (c_buffer_construct 5 [1, 2, 3, 4, 5]).data
      ∧ c_buffer_offset (c_buffer_slice (c_buffer_construct 5 [1, 2, 3, 4, 5]) 1 3)
          = c_buffer_offset (c_buffer_construct 5 [1, 2, 3, 4, 5]) + 1
      ∧ c_buffer_length (c_buffer_slice (c_buffer_construct 5 [1, 2, 3, 4, 5]) 1 3) = 3
      ∧ c_buffer_index (c_buffer_slice (c_buffer_construct 5 [1, 2, 3, 4, 5]) 1 3) 2
          = c_buffer_index (c_buffer_construct 5 [1, 2, 3, 4, 5]) (1 + 2) :=
  c1_slice_within_range_amended (c_buffer_construct 5 [1, 2, 3, 4, 5]) 1 3 2
    (by decide) (by decide)

/-- C2 (code evaluated at the failing input): for the external text whose
very first byte is the `0x00` terminator (memory region `[0x00, 0x07, 0x00]`:
an empty text followed by residual bytes `0x07, 0x00`),
`c_buffer_construct_from_null_terminated_string` returns a buffer of
length 2 with bytes `[0x00, 0x07]` — the scan loop `while (data_nt[++n]);`
never examines byte 0 and reads past the terminator — where the claim
demands a buffer of length 0. -/
theorem c2_from_external_text_failing_input :
    (c_buffer_construct_from_null_terminated_string [0x00, 0x07, 0x00]).map viewBytes
        = some [0x00, 0x07]
      ∧ (c_buffer_construct_from_null_terminated_string [0x00, 0x07, 0x00]).map c_buffer_length
        = some 2 :=
  ⟨rfl, rfl⟩

/-- C3 (counterexample): at `n = 2^32` — a byte sequence of `2^32` zero
bytes — the assignment of `n` into the result's `uint32_t` length field
truncates mod 2^32, so `construct(2^32, bytes)` has length 0, not
`n = 2^32` as the claim demands. -/
theorem c3_construct_cex :
    (List.replicate (2 ^ 32) (0 : Nat)).length = 2 ^ 32
      ∧ c_buffer_length (c_buffer_construct (2 ^ 32) (List.replicate (2 ^ 32) 0)) = 0
      ∧ (2 ^ 32 : Nat) ≠ 0 := by
  refine ⟨List.length_replicate .., ?_, by norm_num⟩
  simp only [c_buffer_length, c_buffer_construct]
  norm_num

/-- C3 (amended): for `n < 2^32` — within the `uint32_t` range of the
length field, where the assignment does not truncate — `construct(n,
bytes)` on a byte sequence of `n` bytes returns a View with offset 0 and
length `n` over Storage with a zeroed header (reference count 0), and
its `index` at `j` is `bytes[j]` for `j < n`. -/
theorem c3_construct_amended (n : Nat) (bytes : List Nat) (j : Nat)
    (hn : n < 2 ^ 32)
    (hlen : bytes.length = n) (hbytes : ∀ x ∈ bytes, x < 256) (hj : j < n) :
    c_buffer_offset (c_buffer_construct n bytes) = 0
      ∧ c_buffer_length (c_buffer_construct n bytes) = n
      ∧ (c_buffer_construct n bytes).data.refcount = 0
      ∧ c_buffer_index (c_buffer_construct n bytes) j = bytes.getD j 0 := by
  refine ⟨rfl, fixedWidth_construct_sub_width n bytes hn, rfl, ?_⟩
  simp only [c_buffer_index, c_buffer_construct]
  rw [Nat.zero_add, getD_range_map _ hj]
  apply Nat.mod_eq_of_lt
  apply hbytes
  have hjl : j < bytes.length := by omega
  rw [List.getD_eq_getElem?_getD, List.getElem?_eq_getElem hjl]
  exact List.getElem_mem hjl

/-- C3 (witness): `construct(3, [0x41, 0x42, 0x43])` at `j = 2`. -/
theorem c3_construct_amended_witness :
    c_buffer_offset (c_buffer_construct 3 [0x41, 0x42, 0x43]) = 0
      ∧ c_buffer_length (c_buffer_construct 3 [0x41, 0x42, 0x43]) = 3
      ∧ (c_buffer_construct 3 [0x41, 0x42, 0x43]).data.refcount = 0
      ∧ c_buffer_index (c_buffer_construct 3 [0x41, 0x42, 0x43]) 2
          = [0x41, 0x42, 0x43].getD 2 0 :=
  c3_construct_amended 3 [0x41, 0x42, 0x43] 2 (by norm_num) (by decide) (by decide)
    (by decide)

/-- C7 (counterexample): at `offset = 2^64 - 1`, `length = 1` — legal
`uint64_t` arguments with `offset + length = 2^64 > 5 = length(b)` — the
guard's `uint64_t` sum wraps to 0, the out-of-range request slips past
the guard, and the code returns a corrupted view with offset
`2^32 - 1`, not `b` unchanged as the claim demands. -/
theorem c7_slice_out_of_range_cex :
    2 ^ 64 - 1 + 1 > c_buffer_length (c_buffer_construct 5 [1, 2, 3, 4, 5])
      ∧ FixedWidth.c_buffer_slice (c_buffer_construct 5 [1, 2, 3, 4, 5]) (2 ^ 64 - 1) 1
          ≠ c_buffer_construct 5 [1, 2, 3, 4, 5]
      ∧ c_buffer_offset
          (FixedWidth.c_buffer_slice (c_buffer_construct 5 [1, 2, 3, 4, 5]) (2 ^ 64 - 1) 1)
        = 2 ^ 32 - 1 :=
  ⟨by decide, by decide, by decide⟩

/-- C7 (amended): whenever `offset + length > length(b)` and the guard's
`uint64_t` sum `b.offset + offset + length` does not wrap (stays below
2^64), `slice(b, offset, length)` returns `b` itself — same offset,
length and storage — with no failure signalled: the non-wrapped guard
sum is at least `offset + length > b.length`. -/
theorem c7_slice_out_of_range_amended (b : Buffer) (off len : Nat)
    (h : off + len > c_buffer_length b)
    (hw : c_buffer_offset b + off + len < 2 ^ 64) :
    FixedWidth.c_buffer_slice b off len = b := by
  simp only [c_buffer_length] at h
  simp only [c_buffer_offset] at hw
  unfold FixedWidth.c_buffer_slice
  rw [if_pos (by rw [Nat.mod_eq_of_lt hw]; omega)]

/-- C7 (witness): `slice(construct(5, [1,2,3,4,5]), 3, 5)` with
`3 + 5 = 8 > 5` returns the original View unchanged. -/
theorem c7_slice_out_of_range_amended_witness :
    FixedWidth.c_buffer_slice (c_buffer_construct 5 [1, 2, 3, 4, 5]) 3 5
      = c_buffer_construct 5 [1, 2, 3, 4, 5] :=
  c7_slice_out_of_range_amended (c_buffer_construct 5 [1, 2, 3, 4, 5]) 3 5
    (by decide) (by decide)

/-- C4: `decrement` frees the Storage (result `none`) exactly when it
observes the shared-owner counter at 0; with counter `k + 1` it leaves
the Storage alive with counter `k`; a single `decrement` on a freshly
constructed buffer frees its Storage; and `increment` followed by
`decrement` leaves the Storage alive and unchanged (counter back where
it started, 0 on a fresh buffer). -/
theorem c4_refcount_decrement (b : Buffer) (k n : Nat) (d : List Nat) :
    (c_buffer_refcount_decrement b = none ↔ b.data.refcount = 0)
      ∧ c_buffer_refcount_decrement { b with data := { b.data with refcount := k + 1 } }
          = some { b.data with refcount := k }
      ∧ c_buffer_refcount_decrement (c_buffer_construct n d) = none
      ∧ c_buffer_refcount_decrement { b with data := c_buffer_refcount_increment b }
          = some b.data := by
  refine ⟨?_, ?_, rfl, ?_⟩
  · unfold c_buffer_refcount_decrement
    split <;> simp_all
  · simp [c_buffer_refcount_decrement]
  · simp [c_buffer_refcount_decrement, c_buffer_refcount_increment]

/-- C5: for the codepoints 0x41 (1-byte), 0x3B1 (2-byte), 0x20AC (3-byte)
and 0x1F600 (4-byte), encoding with `c_buffer_show_Char` and decoding the
resulting buffer with `c_buffer_character_at` at offset 0 reproduces the
codepoint. -/
theorem c5_character_round_trip :
    (c_buffer_show_Char 0x41).map (fun b => c_buffer_character_at b 0) = some 0x41
      ∧ (c_buffer_show_Char 0x3B1).map (fun b => c_buffer_character_at b 0) = some 0x3B1
      ∧ (c_buffer_show_Char 0x20AC).map (fun b => c_buffer_character_at b 0) = some 0x20AC
      ∧ (c_buffer_show_Char 0x1F600).map (fun b => c_buffer_character_at b 0) = some 0x1F600 :=
  ⟨rfl, rfl, rfl, rfl⟩

/-- C6: for `i < length(b)`, if the leading byte at `i` classifies as a
2-, 3- or 4-byte UTF-8 sequence whose byte count would exceed the View's
length, `character_at(b, i)` returns 0. -/
theorem c6_character_at_truncated (b : Buffer) (i : Nat) (hi : i < c_buffer_length b)
    (h : (c_buffer_bytes b i &&& 0xE0 = 0xC0 ∧ i + 2 > c_buffer_length b)
       ∨ (c_buffer_bytes b i &&& 0xF0 = 0xE0 ∧ i + 3 > c_buffer_length b)
       ∨ (c_buffer_bytes b i &&& 0xF8 = 0xF0 ∧ i + 4 > c_buffer_length b)) :
    c_buffer_character_at b i = 0 := by
  have hb : c_buffer_bytes b i < 256 := c_buffer_bytes_lt b i
  have key : ∀ x, x < 256 →
      ((x &&& 0xE0 = 0xC0 → ¬ x < 0x80)
        ∧ (x &&& 0xF0 = 0xE0 → ¬ x < 0x80 ∧ x &&& 0xE0 ≠ 0xC0)
        ∧ (x &&& 0xF8 = 0xF0 →
            ¬ x < 0x80 ∧ x &&& 0xE0 ≠ 0xC0 ∧ x &&& 0xF0 ≠ 0xE0)) := by decide
  obtain ⟨k1, k2, k3⟩ := key _ hb
  simp only [c_buffer_length] at h
  unfold c_buffer_character_at
  rcases h with ⟨h1, h2⟩ | ⟨h1, h2⟩ | ⟨h1, h2⟩
  · rw [if_neg (k1 h1), if_pos h1, if_neg (by omega : ¬ i + 1 < b.length)]
  · obtain ⟨ka, kb⟩ := k2 h1
    rw [if_neg ka, if_neg kb, if_pos h1, if_neg (by omega : ¬ i + 2 < b.length)]
  · obtain ⟨ka, kb, kc⟩ := k3 h1
    rw [if_neg ka, if_neg kb, if_neg kc, if_pos h1,
      if_neg (by omega : ¬ i + 3 < b.length)]

/-- C6 (witness): the buffer `[0xC3]` has a 2-byte leading byte at index 0
but length 1, so decoding yields 0. -/
theorem c6_character_at_truncated_witness :
    c_buffer_character_at (c_buffer_construct 1 [0xC3]) 0 = 0 :=
  c6_character_at_truncated (c_buffer_construct 1 [0xC3]) 0 (by decide)
    (Or.inl ⟨by decide, by decide⟩)

/-- C8: `to_external_text` escapes every zero payload byte as `0xC0 0x80`,
passes every other byte through unchanged in order, and appends a single
real `0x00` terminator, so the text has `length(b) + (number of zero
bytes) + 1` bytes. -/
theorem c8_to_external_text (b : Buffer) :
    c_buffer_as_null_terminated_string b
        = (viewBytes b).flatMap (fun x => if x = 0 then [0xC0, 0x80] else [x]) ++ [0]
      ∧ (c_buffer_as_null_terminated_string b).length
          = c_buffer_length b + (viewBytes b).count 0 + 1 := by
  constructor
  · unfold c_buffer_as_null_terminated_string
    rw [as_nt_string_loop_eq_flatMap]
  · unfold c_buffer_as_null_terminated_string
    rw [List.length_append, as_nt_string_loop_length]
    have hv : (viewBytes b).length = c_buffer_length b := by
      simp [viewBytes]
    rw [hv]
    rfl

/-- C9 (counterexample): concatenating two views of length `2^31` — built
by `construct_zeroed(2^31)`, both representable (length fits `uint32_t`)
— yields a sum `2^32` whose assignment into the result's `uint32_t`
length field truncates to 0, so the result does not have length
`length(a) + length(b) = 2^32` as the claim demands (and the fill loop,
bounded by that truncated length, copies nothing). -/
theorem c9_concatenate_cex :
    c_buffer_length (c_buffer_construct_zeroed (2 ^ 31))
        + c_buffer_length (c_buffer_construct_zeroed (2 ^ 31)) = 2 ^ 32
      ∧ c_buffer_length
          (c_buffer_concatenate (c_buffer_construct_zeroed (2 ^ 31))
            (c_buffer_construct_zeroed (2 ^ 31))) = 0
      ∧ (2 ^ 32 : Nat) ≠ 0 := by
  refine ⟨?_, ?_, by norm_num⟩
  · simp only [c_buffer_length, c_buffer_construct_zeroed, c_buffer_construct]
    norm_num
  · simp only [c_buffer_length, c_buffer_concatenate, c_buffer_construct_zeroed,
      c_buffer_construct]
    norm_num

/-- C9 (amended): for `length(a) + length(b) < 2^32` — so the sum fits
the result's `uint32_t` length field and the fill loop covers every
byte — `concatenate(a, b)` returns a buffer over fresh Storage (offset
0, zeroed header) whose length is `length(a) + length(b)` and whose byte
content is `a`'s bytes followed by `b`'s bytes, covering the case where
either side is empty. -/
theorem c9_concatenate_amended (a b : Buffer)
    (h : c_buffer_length a + c_buffer_length b < 2 ^ 32) :
    c_buffer_length (c_buffer_concatenate a b) = c_buffer_length a + c_buffer_length b
      ∧ c_buffer_offset (c_buffer_concatenate a b) = 0
      ∧ (c_buffer_concatenate a b).data.refcount = 0
      ∧ viewBytes (c_buffer_concatenate a b) = viewBytes a ++ viewBytes b := by
  have h64 : c_buffer_length a + c_buffer_length b < 2 ^ 64 := by
    have hpow : (2 : Nat) ^ 32 < 2 ^ 64 := by norm_num
    omega
  have hlen : c_buffer_length (c_buffer_concatenate a b)
      = c_buffer_length a + c_buffer_length b := by
    simp only [c_buffer_length, c_buffer_concatenate] at h h64 ⊢
    rw [Nat.mod_eq_of_lt h64, Nat.mod_eq_of_lt h]
  refine ⟨hlen, rfl, rfl, ?_⟩
  unfold viewBytes
  rw [hlen, List.range_add, List.map_append, List.map_map]
  congr 1
  · apply List.map_congr_left
    intro j hj
    rw [List.mem_range] at hj
    rw [concat_bytes a b h j (by omega), if_pos hj]
  · apply List.map_congr_left
    intro k hk
    rw [List.mem_range] at hk
    simp only [Function.comp_apply]
    rw [concat_bytes a b h (c_buffer_length a + k) (by omega),
      if_neg (by omega : ¬ c_buffer_length a + k < c_buffer_length a)]
    congr 1
    omega

/-- C9 (witness): the amended concatenation theorem at
`a = construct(2, [10, 20])`, `b = construct(3, [30, 40, 50])`. -/
theorem c9_concatenate_amended_witness :
    c_buffer_length
        (c_buffer_concatenate (c_buffer_construct 2 [10, 20])
          (c_buffer_construct 3 [30, 40, 50]))
      = c_buffer_length (c_buffer_construct 2 [10, 20])
          + c_buffer_length (c_buffer_construct 3 [30, 40, 50])
      ∧ c_buffer_offset
          (c_buffer_concatenate (c_buffer_construct 2 [10, 20])
            (c_buffer_construct 3 [30, 40, 50])) = 0
      ∧ (c_buffer_concatenate (c_buffer_construct 2 [10, 20])
          (c_buffer_construct 3 [30, 40, 50])).data.refcount = 0
      ∧ viewBytes
          (c_buffer_concatenate (c_buffer_construct 2 [10, 20])
            (c_buffer_construct 3 [30, 40, 50]))
        = viewBytes (c_buffer_construct 2 [10, 20])
            ++ viewBytes (c_buffer_construct 3 [30, 40, 50]) :=
  c9_concatenate_amended (c_buffer_construct 2 [10, 20])
    (c_buffer_construct 3 [30, 40, 50]) (by decide)

/-- C10: for `i < length(b)`, if the byte at `i` matches none of the four
UTF-8 leading-byte classes — a continuation byte in `0x80..0xBF`, or a
byte `0xF8` and above — `character_at(b, i)` returns 0. -/
theorem c10_character_at_invalid_lead (b : Buffer) (i : Nat)
    (hi : i < c_buffer_length b)
    (h : (0x80 ≤ c_buffer_bytes b i ∧ c_buffer_bytes b i ≤ 0xBF)
       ∨ 0xF8 ≤ c_buffer_bytes b i) :
    c_buffer_character_at b i = 0 := by
  have hb : c_buffer_bytes b i < 256 := c_buffer_bytes_lt b i
  have key : ∀ x, x < 256 → ((0x80 ≤ x ∧ x ≤ 0xBF) ∨ 0xF8 ≤ x) →
      (¬ x < 0x80 ∧ x &&& 0xE0 ≠ 0xC0 ∧ x &&& 0xF0 ≠ 0xE0 ∧ x &&& 0xF8 ≠ 0xF0) := by
    decide
  obtain ⟨k0, k1, k2, k3⟩ := key _ hb h
  unfold c_buffer_character_at
  rw [if_neg k0, if_neg k1, if_neg k2, if_neg k3]

/-- C10 (witness): the buffer `[0x80]` (a lone continuation byte) decodes
to 0 at index 0. -/
theorem c10_character_at_invalid_lead_witness :
    c_buffer_character_at (c_buffer_construct 1 [0x80]) 0 = 0 :=
  c10_character_at_invalid_lead (c_buffer_construct 1 [0x80]) 0 (by decide)
    (Or.inl ⟨by decide, by decide⟩)
